import Mathlib

/-!
Verification development for the aluring crate: a shallow embedding of its
operation-lifecycle and completion-correlation engine, together with
theorems settling the specification's claims against it.

The embedding follows the Rust source closely.  The external io_uring
collaborator (slot acquisition, flush, blocking wait) is modelled by
explicit oracles: a list of slot-availability answers for
io_uring_get_sqe, a list of return values for io_uring_submit, and a list
of completion responses for io_uring_wait_cqe.  Machine integers are
modelled as Int (i32 result codes, errno values) and Nat (u64 identities,
usize counters); raw pointers are abstracted as numbers since no claim
dereferences them.
-/

/-- Buffer for io_uring: an owned byte vector, or an unmanaged raw region
described by pointer and length.  From src/buf.rs (the identical enum also
appears in src/lib.rs). -/
inductive UringBuf
  | Vec (data : List Nat)
  | Raw (ptr : Nat) (len : Nat)
deriving DecidableEq

/-- Buffer length, from UringBuf::len. -/
def UringBuf.len : UringBuf → Nat
  | .Vec v => v.length
  | .Raw _ l => l

/-- Input for asynchronous read(2), from src/sqe.rs. -/
structure ReadData where
  fd : Int
  buf : UringBuf
  offset : Nat
deriving DecidableEq

/-- Input for asynchronous write(2), from src/sqe.rs. -/
structure WriteData where
  fd : Int
  buf : UringBuf
  offset : Nat
deriving DecidableEq

/-- Input for asynchronous fsync(2), from src/sqe.rs. -/
structure FsyncData where
  fd : Int
deriving DecidableEq

/-- Input for asynchronous fdatasync(2), from src/sqe.rs. -/
structure FdatasyncData where
  fd : Int
deriving DecidableEq

/-- Advice passed to madvise(2), from src/sqe.rs. -/
inductive Madvise
  | Normal
  | DontNeed
deriving DecidableEq

/-- Input for asynchronous madvise(2), from src/sqe.rs. -/
structure MadviseData where
  buf : UringBuf
  advise : Madvise
deriving DecidableEq

/-- The closed set of operation kinds with their descriptors, from
src/sqe.rs (enum UringOperationKind). -/
inductive UringOperationKind
  | Read (d : ReadData)
  | Write (d : WriteData)
  | Fsync (d : FsyncData)
  | Fdatasync (d : FdatasyncData)
  | Madvise (d : MadviseData)
deriving DecidableEq

/-- Discriminator for the Read kind. -/
def UringOperationKind.isRead : UringOperationKind → Bool
  | .Read _ => true
  | _ => false

/-- Discriminator for the Write kind. -/
def UringOperationKind.isWrite : UringOperationKind → Bool
  | .Write _ => true
  | _ => false

/-- Discriminator for the Fsync kind. -/
def UringOperationKind.isFsync : UringOperationKind → Bool
  | .Fsync _ => true
  | _ => false

/-- Discriminator for the Fdatasync kind. -/
def UringOperationKind.isFdatasync : UringOperationKind → Bool
  | .Fdatasync _ => true
  | _ => false

/-- Discriminator for the Madvise kind. -/
def UringOperationKind.isMadvise : UringOperationKind → Bool
  | .Madvise _ => true
  | _ => false

/-- Status of one tracked operation, from src/lib.rs (enum
OperationStatus). -/
inductive OperationStatus
  | Ongoing
  | Completed (res : Int)
  | Cancelled
deriving DecidableEq

/-- Registry entry: current status plus the original descriptor, from
src/lib.rs (struct UringOperation). -/
structure UringOperation where
  status : OperationStatus
  kind : UringOperationKind
deriving DecidableEq

/-- Error taxonomy of the crate, from src/lib.rs (enum Error).  io::Error
payloads are modelled by the errno passed to from_raw_os_error. -/
inductive Error
  | InitError (errno : Int) (entries : Nat)
  | GetSqeError
  | SubmitError (errno : Int)
  | WaitCqeError (errno : Int)
  | InternalError (msg : String)
deriving DecidableEq

/-- Sign test of the try_io macro in src/result.rs lines 34-42: a negative
raw code becomes an OS error carrying the negated code, otherwise the given
success value is produced. -/
def try_io_conv {A : Type} (res : Int) (e : A) : Except Int A :=
  if res < 0 then .error (-res) else .ok e

/-- Result of asynchronous read(2), from src/result.rs
(define_buf_io_result). -/
structure ReadResult where
  buf : UringBuf
  res : Int
deriving DecidableEq

/-- Result of asynchronous write(2), from src/result.rs. -/
structure WriteResult where
  buf : UringBuf
  res : Int
deriving DecidableEq

/-- Result of asynchronous madvise(2), from src/result.rs. -/
structure MadviseResult where
  buf : UringBuf
  res : Int
deriving DecidableEq

/-- Result of asynchronous fsync(2), from src/result.rs
(define_empty_io_result). -/
structure FsyncResult where
  res : Int
deriving DecidableEq

/-- Result of asynchronous fdatasync(2), from src/result.rs. -/
structure FdatasyncResult where
  res : Int
deriving DecidableEq

/-- IoResult::as_io_result for ReadResult: try_io over the raw code, with
the byte count (res as usize) as the success value. -/
def ReadResult.as_io_result (r : ReadResult) : Except Int Nat :=
  try_io_conv r.res r.res.toNat

/-- IoResult::as_io_result for WriteResult. -/
def WriteResult.as_io_result (r : WriteResult) : Except Int Nat :=
  try_io_conv r.res r.res.toNat

/-- IoResult::as_io_result for MadviseResult. -/
def MadviseResult.as_io_result (r : MadviseResult) : Except Int Nat :=
  try_io_conv r.res r.res.toNat

/-- IoResult::as_io_result for FsyncResult (no payload). -/
def FsyncResult.as_io_result (r : FsyncResult) : Except Int Unit :=
  try_io_conv r.res ()

/-- IoResult::as_io_result for FdatasyncResult (no payload). -/
def FdatasyncResult.as_io_result (r : FdatasyncResult) : Except Int Unit :=
  try_io_conv r.res ()

/-- BufIoResult::into_buf for ReadResult: the buffer is handed back
unconditionally, whatever the raw code was. -/
def ReadResult.into_buf (r : ReadResult) : UringBuf := r.buf

/-- BufIoResult::into_buf for WriteResult. -/
def WriteResult.into_buf (r : WriteResult) : UringBuf := r.buf

/-- BufIoResult::into_buf for MadviseResult. -/
def MadviseResult.into_buf (r : MadviseResult) : UringBuf := r.buf

/-- TryInto of (i32, UringOperationKind) into ReadResult, generated by
define_buf_io_result in src/result.rs lines 78-92: the matching kind
yields the result carrying the original buffer, any other kind is an
InternalError. -/
def try_into_read : Int × UringOperationKind → Except Error ReadResult
  | (res, .Read d) => .ok ⟨d.buf, res⟩
  | _ => .error (.InternalError "invalid conversion from UringOperationKind to ReadResult")

/-- TryInto of (i32, UringOperationKind) into WriteResult. -/
def try_into_write : Int × UringOperationKind → Except Error WriteResult
  | (res, .Write d) => .ok ⟨d.buf, res⟩
  | _ => .error (.InternalError "invalid conversion from UringOperationKind to WriteResult")

/-- TryInto of (i32, UringOperationKind) into MadviseResult. -/
def try_into_madvise : Int × UringOperationKind → Except Error MadviseResult
  | (res, .Madvise d) => .ok ⟨d.buf, res⟩
  | _ => .error (.InternalError "invalid conversion from UringOperationKind to MadviseResult")

/-- TryInto of (i32, UringOperationKind) into FsyncResult, generated by
define_empty_io_result in src/result.rs lines 123-135. -/
def try_into_fsync : Int × UringOperationKind → Except Error FsyncResult
  | (res, .Fsync _) => .ok ⟨res⟩
  | _ => .error (.InternalError "invalid conversion from UringOperationKind to FsyncResult")

/-- TryInto of (i32, UringOperationKind) into FdatasyncResult. -/
def try_into_fdatasync : Int × UringOperationKind → Except Error FdatasyncResult
  | (res, .Fdatasync _) => .ok ⟨res⟩
  | _ => .error (.InternalError "invalid conversion from UringOperationKind to FdatasyncResult")

namespace Lib

/-- Result object of the monolithic src/lib.rs: the raw completion code
plus the recorded operation kind (struct UringResult, lines 70-73). -/
structure UringResult where
  res : Int
  kind : UringOperationKind
deriving DecidableEq

/-- UringResult::as_io_error from src/lib.rs lines 76-82, translated
exactly as written there: the branch on the sign of the raw code, with the
error payload being the argument the source passes to
io::Error::from_raw_os_error. -/
def UringResult.as_io_error (r : UringResult) : Except Int Unit :=
  if r.res < 0 then .ok () else .error (-r.res)

/-- UringResult::into_buf from src/lib.rs lines 84-87: the TryInto of the
kind into UringBuf yields the buffer for the Read, Write and Madvise kinds
and nothing otherwise (src/lib.rs lines 434-445). -/
def UringResult.into_buf (r : UringResult) : Option UringBuf :=
  match r.kind with
  | .Read d => some d.buf
  | .Write d => some d.buf
  | .Madvise d => some d.buf
  | _ => none

end Lib

/-- Lookup in the registry map, modelled as an association list keyed by
the operation identity (HashMap of u64 to UringOperation in the source). -/
def mlookup {A : Type} : List (Nat × A) → Nat → Option A
  | [], _ => none
  | (a, v) :: tl, k => if a = k then some v else mlookup tl k

/-- Removal of a key from the registry map (HashMap::remove or
Entry::remove in the source). -/
def merase {A : Type} : List (Nat × A) → Nat → List (Nat × A)
  | [], _ => []
  | (a, v) :: tl, k => if a = k then merase tl k else (a, v) :: merase tl k

/-- Insertion or replacement of a key in the registry map
(HashMap::insert, or in-place mutation through the entry API). -/
def minsert {A : Type} (m : List (Nat × A)) (k : Nat) (v : A) : List (Nat × A) :=
  (k, v) :: merase m k

/-- Internal state of the ring context, from src/lib.rs (struct
UringState): identity generator, registry map, and the count of
submitted-but-not-yet-completed slots. -/
structure UringState where
  id_gen : Nat
  map : List (Nat × UringOperation)
  submitted_count : Nat
deriving DecidableEq

/-- Engine-level stop conditions.  err wraps the crate's Error values that
the source returns as Result::Err; panicked models a Rust panic (an assert
or unreachable firing); blocked models indefinite blocking when an oracle
of kernel responses is exhausted. -/
inductive EngineStop
  | err (e : Error)
  | panicked (msg : String)
  | blocked
deriving DecidableEq

/-- One completion queue entry: the correlation identity stored through
io_uring_cqe_get_data64 and the raw i32 result code. -/
structure Cqe where
  id : Nat
  res : Int
deriving DecidableEq

/-- A response of the kernel to one io_uring_wait_cqe call: a completion,
or a negative return modelled by the errno passed to from_raw_os_error. -/
inductive CqeResp
  | ok (c : Cqe)
  | err (errno : Int)
deriving DecidableEq

/-- The libc EBUSY errno on Linux. -/
def EBUSY : Int := 16

/-- Uring::submit_with_context from src/lib.rs lines 270-285, driven by an
oracle list of io_uring_submit return values: a negative EBUSY return
retries the flush, another negative return is a SubmitError built from the
negated value, and a non-negative return is the count of accepted entries,
which is added to submitted_count.  An exhausted oracle is modelled as
blocked. -/
def submit_with_context (st : UringState) : List Int → UringState × List Int × Except EngineStop Nat
  | [] => (st, [], .error .blocked)
  | ret :: rest =>
    if ret < 0 then
      if ret = -EBUSY then
        submit_with_context st rest
      else
        (st, rest, .error (.err (.SubmitError (-ret))))
    else
      ({ st with submitted_count := st.submitted_count + ret.toNat }, rest, .ok ret.toNat)

/-- io_uring_get_sqe, driven by an oracle list of availability answers:
true means a free submission slot was returned, false means none.  An
exhausted oracle also means no slot. -/
def get_sqe : List Bool → Option Unit × List Bool
  | [] => (none, [])
  | b :: rest => (if b then some () else none, rest)

/-- Uring::sqe from src/lib.rs lines 257-268: ask for a slot; if none is
free, flush through submit_with_context and ask exactly once more, turning
a second refusal into GetSqeError. -/
def sqe (st : UringState) (sq : List Bool) (subs : List Int) :
    UringState × List Bool × List Int × Except EngineStop Unit :=
  match get_sqe sq with
  | (some _, sq1) => (st, sq1, subs, .ok ())
  | (none, sq1) =>
    match submit_with_context st subs with
    | (st1, subs1, .error e) => (st1, sq1, subs1, .error e)
    | (st1, subs1, .ok _) =>
      match get_sqe sq1 with
      | (some _, sq2) => (st1, sq2, subs1, .ok ())
      | (none, sq2) => (st1, sq2, subs1, .error (.err .GetSqeError))

/-- Uring::prepare from src/lib.rs lines 287-303: acquire a slot, encode
the descriptor into it (external, no logical effect), increment the
identity generator, record an Ongoing registry entry under the new
identity, attach the identity to the slot, and return the handle's
identity. -/
def prepare (st : UringState) (sq : List Bool) (subs : List Int) (kind : UringOperationKind) :
    UringState × List Bool × List Int × Except EngineStop Nat :=
  match sqe st sq subs with
  | (st1, sq1, subs1, .error e) => (st1, sq1, subs1, .error e)
  | (st1, sq1, subs1, .ok _) =>
    ({ id_gen := st1.id_gen + 1,
       map := minsert st1.map (st1.id_gen + 1) ⟨OperationStatus.Ongoing, kind⟩,
       submitted_count := st1.submitted_count }, sq1, subs1, .ok (st1.id_gen + 1))

/-- Uring::handle_cqe from src/lib.rs lines 209-234: decrement the
outstanding count, mark the completion as seen, assert the identity is not
zero, and update the registry entry for the identity: absence is an
InternalError, a Cancelled entry is removed with its result discarded, any
other entry transitions to Completed with the raw code.  Returns the
identity observed. -/
def handle_cqe (st : UringState) (c : Cqe) : UringState × Except EngineStop Nat :=
  let st1 := { st with submitted_count := st.submitted_count - 1 }
  if c.id = 0 then
    (st1, .error (.panicked "completion carries the reserved identity zero"))
  else
    match mlookup st1.map c.id with
    | none => (st1, .error (.err (.InternalError "no entry in the state map for the id")))
    | some op =>
      match op.status with
      | .Cancelled => ({ st1 with map := merase st1.map c.id }, .ok c.id)
      | _ => ({ st1 with map := minsert st1.map c.id ⟨OperationStatus.Completed c.res, op.kind⟩ }, .ok c.id)

/-- Uring::wait_single_cqe from src/lib.rs lines 192-207: a no-op when no
slots are outstanding; otherwise consume the next io_uring_wait_cqe
response, handing a completion to handle_cqe and turning a negative return
into WaitCqeError. -/
def wait_single_cqe (st : UringState) (cq : List CqeResp) :
    UringState × List CqeResp × Except EngineStop (Option Nat) :=
  if st.submitted_count = 0 then
    (st, cq, .ok none)
  else
    match cq with
    | [] => (st, [], .error .blocked)
    | .err e :: rest => (st, rest, .error (.err (.WaitCqeError e)))
    | .ok c :: rest =>
      match handle_cqe st c with
      | (st1, .ok id) => (st1, rest, .ok (some id))
      | (st1, .error e) => (st1, rest, .error e)

/-- One while-let loop of Uring::wait_for: drain completions through
wait_single_cqe until the target identity is observed (ok true), until a
drain is a no-op (ok false), or until an error stops the loop.  Structural
recursion on the completion oracle; each continuing iteration consumes
exactly one response. -/
def drain_until (id : Nat) : UringState → List CqeResp → UringState × List CqeResp × Except EngineStop Bool
  | st, cq =>
    if st.submitted_count = 0 then
      (st, cq, .ok false)
    else
      match cq with
      | [] => (st, [], .error .blocked)
      | .err e :: rest => (st, rest, .error (.err (.WaitCqeError e)))
      | .ok c :: rest =>
        match handle_cqe st c with
        | (st1, .error e) => (st1, rest, .error e)
        | (st1, .ok nid) =>
          if nid = id then (st1, rest, .ok true) else drain_until id st1 rest

/-- Uring::wait_for from src/lib.rs lines 236-255: drain completions until
the target identity is seen; if draining reaches a no-op first, perform one
implicit flush and drain again; a second exhaustion is an InternalError. -/
def wait_for (st : UringState) (cq : List CqeResp) (subs : List Int) (id : Nat) :
    UringState × List CqeResp × List Int × Except EngineStop Unit :=
  match drain_until id st cq with
  | (st1, cq1, .ok true) => (st1, cq1, subs, .ok ())
  | (st1, cq1, .error e) => (st1, cq1, subs, .error e)
  | (st1, cq1, .ok false) =>
    match submit_with_context st1 subs with
    | (st2, subs2, .error e) => (st2, cq1, subs2, .error e)
    | (st2, subs2, .ok _) =>
      match drain_until id st2 cq1 with
      | (st3, cq3, .ok true) => (st3, cq3, subs2, .ok ())
      | (st3, cq3, .error e) => (st3, cq3, subs2, .error e)
      | (st3, cq3, .ok false) =>
        (st3, cq3, subs2, .error (.err (.InternalError "wait_for could not find the operation with the given id")))

/-- Drop for Handle, from src/handle.rs lines 123-136 (identical in
src/lib.rs lines 113-126): a Completed entry is removed with its result
silently discarded, any other present entry is marked Cancelled, an absent
entry is left alone.  Dropping is total: it returns a state and can raise
no error. -/
def handle_drop (st : UringState) (id : Nat) : UringState :=
  match mlookup st.map id with
  | none => st
  | some op =>
    match op.status with
    | .Completed _ => { st with map := merase st.map id }
    | _ => { st with map := minsert st.map id ⟨OperationStatus.Cancelled, op.kind⟩ }

/-- Handle::wait from src/handle.rs lines 92-120: if the registry already
shows the identity as Completed, remove the entry and return its raw code
and descriptor; otherwise run wait_for and then remove the now-Completed
entry.  The handle is consumed, so Drop for Handle runs after the body on
ordinary returns; this is modelled by applying handle_drop to the final
state (a no-op on the success path, where the entry was just removed). -/
def handle_wait (st : UringState) (cq : List CqeResp) (subs : List Int) (id : Nat) :
    UringState × List CqeResp × List Int × Except EngineStop (Int × UringOperationKind) :=
  match mlookup st.map id with
  | none => (st, cq, subs, .error (.panicked "no entry for the id in state"))
  | some op =>
    match op.status with
    | .Completed res =>
      (handle_drop { st with map := merase st.map id } id, cq, subs, .ok (res, op.kind))
    | _ =>
      match wait_for st cq subs id with
      | (st1, cq1, subs1, .error (.err e)) => (handle_drop st1 id, cq1, subs1, .error (.err e))
      | (st1, cq1, subs1, .error e) => (st1, cq1, subs1, .error e)
      | (st1, cq1, subs1, .ok _) =>
        match mlookup st1.map id with
        | some op2 =>
          match op2.status with
          | .Completed res =>
            (handle_drop { st1 with map := merase st1.map id } id, cq1, subs1, .ok (res, op2.kind))
          | _ => (st1, cq1, subs1, .error (.panicked "no completed entry for the id in state after wait_for"))
        | none => (st1, cq1, subs1, .error (.panicked "no completed entry for the id in state after wait_for"))

/-- Handle::wait from the monolithic src/lib.rs lines 95-110: always run
wait_for first, then remove the entry (expecting it to be present) and
return its code if Completed, or an InternalError otherwise.  As above,
Drop for Handle runs after the body on ordinary returns, modelled by
handle_drop on the final state. -/
def lib_handle_wait (st : UringState) (cq : List CqeResp) (subs : List Int) (id : Nat) :
    UringState × List CqeResp × List Int × Except EngineStop (Int × UringOperationKind) :=
  match wait_for st cq subs id with
  | (st1, cq1, subs1, .error (.err e)) => (handle_drop st1 id, cq1, subs1, .error (.err e))
  | (st1, cq1, subs1, .error e) => (st1, cq1, subs1, .error e)
  | (st1, cq1, subs1, .ok _) =>
    match mlookup st1.map id with
    | none => (st1, cq1, subs1, .error (.panicked "key must be present"))
    | some op =>
      match op.status with
      | .Completed res =>
        (handle_drop { st1 with map := merase st1.map id } id, cq1, subs1, .ok (res, op.kind))
      | _ =>
        (handle_drop { st1 with map := merase st1.map id } id, cq1, subs1,
          .error (.err (.InternalError "trying to convert to result when operation is not finished")))

/-- The drain loop of Drop for Uring, src/lib.rs lines 464-470: repeat
wait_single_cqe while it yields Ok(Some(id)); the loop exits on Ok(None)
(nothing outstanding) or on an Err.  Returns none when the model would
block forever (exhausted completion oracle) or a panic fires; otherwise
the state and remaining oracle at the moment io_uring_queue_exit releases
the kernel ring. -/
def uring_drop_drain : UringState → List CqeResp → Option (UringState × List CqeResp)
  | st, cq =>
    if st.submitted_count = 0 then
      some (st, cq)
    else
      match cq with
      | [] => none
      | .err _ :: rest => some (st, rest)
      | .ok c :: rest =>
        match handle_cqe st c with
        | (st1, .ok _) => uring_drop_drain st1 rest
        | (st1, .error (.err _)) => some (st1, rest)
        | (_, .error _) => none

/-- A run of successive prepare calls: threads the state and the kernel
oracles through prepare once per descriptor, collecting the assigned
identities, and yields none as soon as one prepare fails. -/
def prepare_run : UringState → List Bool → List Int → List UringOperationKind →
    Option (List Nat × UringState)
  | st, _, _, [] => some ([], st)
  | st, sq, subs, k :: ks =>
    match prepare st sq subs k with
    | (st1, sq1, subs1, .ok id) =>
      match prepare_run st1 sq1 subs1 ks with
      | some (ids, stf) => some (id :: ids, stf)
      | none => none
    | _ => none

/-- Looking up the key just inserted yields the inserted value. -/
theorem mlookup_minsert_self {A : Type} (m : List (Nat × A)) (k : Nat) (v : A) :
    mlookup (minsert m k v) k = some v := by
  simp [minsert, mlookup]

/-- Erasing a key makes its lookup fail. -/
theorem mlookup_merase_self {A : Type} (m : List (Nat × A)) (k : Nat) :
    mlookup (merase m k) k = none := by
  induction m with
  | nil => rfl
  | cons hd tl ih =>
    rcases hd with ⟨a, v⟩
    by_cases h : a = k
    · simpa [merase, h] using ih
    · simpa [merase, mlookup, h] using ih

/-- Erasing one key leaves lookups of other keys unchanged. -/
theorem mlookup_merase_ne {A : Type} (m : List (Nat × A)) (k j : Nat) (h : j ≠ k) :
    mlookup (merase m k) j = mlookup m j := by
  have hkj : k ≠ j := Ne.symm h
  induction m with
  | nil => rfl
  | cons hd tl ih =>
    rcases hd with ⟨a, v⟩
    by_cases hak : a = k
    · have haj : a ≠ j := by
        intro hcontra
        exact h (hcontra ▸ hak)
      simp [merase, mlookup, hak, haj, hkj, h, ih]
    · by_cases haj : a = j
      · simp [merase, mlookup, hak, haj, hkj, h]
      · simp [merase, mlookup, hak, haj, hkj, h, ih]

/-- Inserting one key leaves lookups of other keys unchanged. -/
theorem mlookup_minsert_ne {A : Type} (m : List (Nat × A)) (k j : Nat) (v : A) (h : j ≠ k) :
    mlookup (minsert m k v) j = mlookup m j := by
  have hk : k ≠ j := Ne.symm h
  simp [minsert, mlookup, hk, mlookup_merase_ne m k j h]

/-- Flushing never touches the identity generator or the registry map,
whatever the kernel answers. -/
theorem submit_with_context_preserves (st : UringState) : ∀ subs : List Int,
    (submit_with_context st subs).1.id_gen = st.id_gen ∧
    (submit_with_context st subs).1.map = st.map := by
  intro subs
  induction subs with
  | nil => simp [submit_with_context]
  | cons ret rest ih =>
    by_cases hneg : ret < 0
    · by_cases hb : ret = -EBUSY
      · simpa [submit_with_context, hneg, hb] using ih
      · simp [submit_with_context, hneg, hb]
    · simp [submit_with_context, hneg]

/-- A successful flush returns the accepted count and adds exactly that
count to the outstanding counter, leaving everything else unchanged. -/
theorem submit_with_context_ok (st : UringState) : ∀ subs subs1 st1 n,
    submit_with_context st subs = (st1, subs1, .ok n) →
    st1 = { st with submitted_count := st.submitted_count + n } := by
  intro subs
  induction subs with
  | nil =>
    intro subs1 st1 n hsub
    simp [submit_with_context] at hsub
  | cons ret rest ih =>
    intro subs1 st1 n hsub
    by_cases hneg : ret < 0
    · by_cases hb : ret = -EBUSY
      · exact ih subs1 st1 n (by simpa [submit_with_context, hneg, hb] using hsub)
      · simp [submit_with_context, hneg, hb] at hsub
    · simp [submit_with_context, hneg] at hsub
      obtain ⟨h1, _, h3⟩ := hsub
      rw [← h1, h3]

/-- A failed flush leaves the state untouched, and the only errors a flush
can surface are SubmitError or model blocking on an exhausted oracle. -/
theorem submit_with_context_error (st : UringState) : ∀ subs subs1 st1 e,
    submit_with_context st subs = (st1, subs1, .error e) →
    st1 = st ∧ (e = .blocked ∨ ∃ n, e = .err (.SubmitError n)) := by
  intro subs
  induction subs with
  | nil =>
    intro subs1 st1 e hsub
    simp [submit_with_context] at hsub
    exact ⟨hsub.1.symm, Or.inl hsub.2.2.symm⟩
  | cons ret rest ih =>
    intro subs1 st1 e hsub
    by_cases hneg : ret < 0
    · by_cases hb : ret = -EBUSY
      · exact ih subs1 st1 e (by simpa [submit_with_context, hneg, hb] using hsub)
      · simp [submit_with_context, hneg, hb] at hsub
        exact ⟨hsub.1.symm, Or.inr ⟨-ret, hsub.2.2.symm⟩⟩
    · simp [submit_with_context, hneg] at hsub

/-- Slot acquisition never touches the identity generator or the registry
map. -/
theorem sqe_preserves (st : UringState) (sq : List Bool) (subs : List Int) :
    (sqe st sq subs).1.id_gen = st.id_gen ∧ (sqe st sq subs).1.map = st.map := by
  have hpres := submit_with_context_preserves st subs
  rcases hsub : submit_with_context st subs with ⟨stA, subsA, rA⟩
  rw [hsub] at hpres
  rcases sq with _ | ⟨b, sqr⟩
  · cases rA with
    | error e => simpa [sqe, get_sqe, hsub] using hpres
    | ok n => simpa [sqe, get_sqe, hsub] using hpres
  · cases b
    · cases rA with
      | error e => simpa [sqe, get_sqe, hsub] using hpres
      | ok n =>
        rcases sqr with _ | ⟨b2, sqr2⟩
        · simpa [sqe, get_sqe, hsub] using hpres
        · cases b2 <;> simpa [sqe, get_sqe, hsub] using hpres
    · simp [sqe, get_sqe]

/-- Claim C1: the claim says a negative raw code yields an OS error built from
the negated code and a non-negative raw code yields success.  The decoder
of src/result.rs (try_io, used by every as_io_result) does exactly that,
and the buffer-owning result types return the buffer unconditionally, but
UringResult::as_io_error in src/lib.rs lines 76-82 has the branch
inverted: a negative code yields Ok(()) and a non-negative code yields an
error carrying the negated (hence non-positive) code.  This theorem
exhibits both behaviours at concrete inputs. -/
theorem c1_as_io_error_inverted :
    Lib.UringResult.as_io_error ⟨-1, .Fsync ⟨3⟩⟩ = .ok () ∧
    Lib.UringResult.as_io_error ⟨0, .Fsync ⟨3⟩⟩ = .error 0 ∧
    Lib.UringResult.as_io_error ⟨5, .Fsync ⟨3⟩⟩ = .error (-5) ∧
    FsyncResult.as_io_result ⟨-1⟩ = .error 1 ∧
    FsyncResult.as_io_result ⟨0⟩ = .ok () ∧
    FdatasyncResult.as_io_result ⟨-9⟩ = .error 9 ∧
    ReadResult.as_io_result ⟨.Vec [7], -1⟩ = .error 1 ∧
    ReadResult.as_io_result ⟨.Vec [7], 7⟩ = .ok 7 ∧
    WriteResult.as_io_result ⟨.Vec [7], 4⟩ = .ok 4 ∧
    MadviseResult.as_io_result ⟨.Vec [7], -22⟩ = .error 22 ∧
    ReadResult.into_buf ⟨.Vec [7], -1⟩ = .Vec [7] ∧
    WriteResult.into_buf ⟨.Vec [7], -1⟩ = .Vec [7] ∧
    MadviseResult.into_buf ⟨.Vec [7], -1⟩ = .Vec [7] ∧
    Lib.UringResult.into_buf ⟨-1, .Read ⟨4, .Vec [9], 0⟩⟩ = some (.Vec [9]) := by
  refine ⟨rfl, rfl, rfl, rfl, rfl, rfl, rfl, rfl, rfl, rfl, rfl, rfl, rfl, rfl⟩

/-- Claim C7: for every raw code and recorded kind, decoding into the typed
result of a mismatched kind fails with InternalError, and decoding into
the matching kind's result always succeeds, carrying the original buffer
(where one exists) and the raw code. -/
theorem c7_typed_decode (res : Int) (kind : UringOperationKind) :
    ((∃ r, try_into_read (res, kind) = .ok r) ↔ kind.isRead = true) ∧
    ((∃ s, try_into_read (res, kind) = .error (.InternalError s)) ↔ kind.isRead = false) ∧
    (∀ d, try_into_read (res, .Read d) = .ok ⟨d.buf, res⟩) ∧
    ((∃ r, try_into_write (res, kind) = .ok r) ↔ kind.isWrite = true) ∧
    ((∃ s, try_into_write (res, kind) = .error (.InternalError s)) ↔ kind.isWrite = false) ∧
    (∀ d, try_into_write (res, .Write d) = .ok ⟨d.buf, res⟩) ∧
    ((∃ r, try_into_madvise (res, kind) = .ok r) ↔ kind.isMadvise = true) ∧
    ((∃ s, try_into_madvise (res, kind) = .error (.InternalError s)) ↔ kind.isMadvise = false) ∧
    (∀ d, try_into_madvise (res, .Madvise d) = .ok ⟨d.buf, res⟩) ∧
    ((∃ r, try_into_fsync (res, kind) = .ok r) ↔ kind.isFsync = true) ∧
    ((∃ s, try_into_fsync (res, kind) = .error (.InternalError s)) ↔ kind.isFsync = false) ∧
    (∀ d, try_into_fsync (res, .Fsync d) = .ok ⟨res⟩) ∧
    ((∃ r, try_into_fdatasync (res, kind) = .ok r) ↔ kind.isFdatasync = true) ∧
    ((∃ s, try_into_fdatasync (res, kind) = .error (.InternalError s)) ↔ kind.isFdatasync = false) ∧
    (∀ d, try_into_fdatasync (res, .Fdatasync d) = .ok ⟨res⟩) := by
  cases kind <;>
    simp [try_into_read, try_into_write, try_into_madvise, try_into_fsync, try_into_fdatasync,
      UringOperationKind.isRead, UringOperationKind.isWrite, UringOperationKind.isMadvise,
      UringOperationKind.isFsync, UringOperationKind.isFdatasync]

/-- Claim C3: draining one completion is an immediate no-op, never blocking,
whenever no slots are outstanding; otherwise it consumes exactly one
completion response, decrements the outstanding count, and updates the
registry entry of the completion's correlation identity: an absent
identity fails with InternalError, a Cancelled entry is removed with its
result discarded, and any other entry transitions to Completed with the
raw code, the identity observed being returned. -/
theorem c3_wait_single_cqe_spec (st : UringState) (cq : List CqeResp)
    (id : Nat) (res : Int) (rest : List CqeResp) :
    (st.submitted_count = 0 → wait_single_cqe st cq = (st, cq, .ok none)) ∧
    (st.submitted_count ≠ 0 → id ≠ 0 → cq = .ok ⟨id, res⟩ :: rest →
      ((wait_single_cqe st cq).2.1 = rest ∧
       (wait_single_cqe st cq).1.submitted_count = st.submitted_count - 1 ∧
       (mlookup st.map id = none →
         (wait_single_cqe st cq).2.2 =
           .error (.err (.InternalError "no entry in the state map for the id"))) ∧
       (∀ op : UringOperation, mlookup st.map id = some op → op.status = .Cancelled →
         (wait_single_cqe st cq).2.2 = .ok (some id) ∧
         mlookup (wait_single_cqe st cq).1.map id = none) ∧
       (∀ op : UringOperation, mlookup st.map id = some op → op.status ≠ .Cancelled →
         (wait_single_cqe st cq).2.2 = .ok (some id) ∧
         mlookup (wait_single_cqe st cq).1.map id = some ⟨.Completed res, op.kind⟩))) := by
  constructor
  · intro h0
    simp [wait_single_cqe, h0]
  · intro hne hid hcq
    subst hcq
    rcases hl : mlookup st.map id with _ | op
    · have hw : wait_single_cqe st (.ok ⟨id, res⟩ :: rest) =
          (⟨st.id_gen, st.map, st.submitted_count - 1⟩, rest,
            .error (.err (.InternalError "no entry in the state map for the id"))) := by
        simp [wait_single_cqe, handle_cqe, hne, hid, hl]
      refine ⟨by rw [hw], by rw [hw], fun _ => by rw [hw], ?_, ?_⟩
      · intro op hop
        simp [hl] at hop
      · intro op hop
        simp [hl] at hop
    · rcases hst : op.status with _ | r | _
      · have hw : wait_single_cqe st (.ok ⟨id, res⟩ :: rest) =
            (⟨st.id_gen, minsert st.map id ⟨.Completed res, op.kind⟩, st.submitted_count - 1⟩,
              rest, .ok (some id)) := by
          simp [wait_single_cqe, handle_cqe, hne, hid, hl, hst]
        refine ⟨by rw [hw], by rw [hw], ?_, ?_, ?_⟩
        · intro hnone
          simp [hl] at hnone
        · intro op2 hop2 hcanc
          injection hop2 with he
          subst he
          rw [hst] at hcanc
          cases hcanc
        · intro op2 hop2 _
          injection hop2 with he
          subst he
          exact ⟨by rw [hw], by rw [hw]; exact mlookup_minsert_self st.map id _⟩
      · have hw : wait_single_cqe st (.ok ⟨id, res⟩ :: rest) =
            (⟨st.id_gen, minsert st.map id ⟨.Completed res, op.kind⟩, st.submitted_count - 1⟩,
              rest, .ok (some id)) := by
          simp [wait_single_cqe, handle_cqe, hne, hid, hl, hst]
        refine ⟨by rw [hw], by rw [hw], ?_, ?_, ?_⟩
        · intro hnone
          simp [hl] at hnone
        · intro op2 hop2 hcanc
          injection hop2 with he
          subst he
          rw [hst] at hcanc
          cases hcanc
        · intro op2 hop2 _
          injection hop2 with he
          subst he
          exact ⟨by rw [hw], by rw [hw]; exact mlookup_minsert_self st.map id _⟩
      · have hw : wait_single_cqe st (.ok ⟨id, res⟩ :: rest) =
            (⟨st.id_gen, merase st.map id, st.submitted_count - 1⟩, rest, .ok (some id)) := by
          simp [wait_single_cqe, handle_cqe, hne, hid, hl, hst]
        refine ⟨by rw [hw], by rw [hw], ?_, ?_, ?_⟩
        · intro hnone
          simp [hl] at hnone
        · intro op2 hop2 _
          injection hop2 with he
          subst he
          exact ⟨by rw [hw], by rw [hw]; exact mlookup_merase_self st.map id⟩
        · intro op2 hop2 hncanc
          injection hop2 with he
          subst he
          exact absurd hst hncanc

/-- Witness for C3 at a concrete state: one outstanding Ongoing operation
whose completion transitions it to Completed, and the no-op case when
nothing is outstanding. -/
theorem c3_wait_single_cqe_witness :
    (wait_single_cqe ⟨1, [(1, ⟨.Ongoing, .Fsync ⟨3⟩⟩)], 1⟩ [.ok ⟨1, 5⟩]).2.2 = .ok (some 1) ∧
    mlookup (wait_single_cqe ⟨1, [(1, ⟨.Ongoing, .Fsync ⟨3⟩⟩)], 1⟩ [.ok ⟨1, 5⟩]).1.map 1 =
      some ⟨.Completed 5, .Fsync ⟨3⟩⟩ ∧
    (wait_single_cqe ⟨1, [(1, ⟨.Ongoing, .Fsync ⟨3⟩⟩)], 1⟩ [.ok ⟨1, 5⟩]).1.submitted_count = 0 ∧
    wait_single_cqe ⟨1, [(1, ⟨.Ongoing, .Fsync ⟨3⟩⟩)], 0⟩ [.ok ⟨1, 5⟩] =
      (⟨1, [(1, ⟨.Ongoing, .Fsync ⟨3⟩⟩)], 0⟩, [.ok ⟨1, 5⟩], .ok none) := by
  have h1 := c3_wait_single_cqe_spec ⟨1, [(1, ⟨.Ongoing, .Fsync ⟨3⟩⟩)], 1⟩ [.ok ⟨1, 5⟩] 1 5 []
  have h2 := c3_wait_single_cqe_spec ⟨1, [(1, ⟨.Ongoing, .Fsync ⟨3⟩⟩)], 0⟩ [.ok ⟨1, 5⟩] 1 5 []
  have hs := h1.2 (by decide) (by decide) rfl
  have hcomp := hs.2.2.2.2 ⟨.Ongoing, .Fsync ⟨3⟩⟩ (by decide) (by decide)
  exact ⟨hcomp.1, hcomp.2, hs.2.1, h2.1 rfl⟩

/-- A flush silently consumes one EBUSY answer and tries again. -/
theorem submit_with_context_busy_step (st : UringState) (l : List Int) :
    submit_with_context st (-EBUSY :: l) = submit_with_context st l := by
  norm_num [submit_with_context, EBUSY]

/-- Claim C8: flushing retries automatically and invisibly across any number of
EBUSY returns from the kernel, fails with SubmitError built from the
negated return exactly when the kernel reports any other error, and on a
non-negative return succeeds with the accepted count, adding that count to
the outstanding-submissions counter. -/
theorem c8_submit_retry (st : UringState) (m : Nat) (r : Int) (rest : List Int) :
    (0 ≤ r → submit_with_context st (List.replicate m (-EBUSY) ++ r :: rest) =
      ({ st with submitted_count := st.submitted_count + r.toNat }, rest, .ok r.toNat)) ∧
    (r < 0 → r ≠ -EBUSY → submit_with_context st (List.replicate m (-EBUSY) ++ r :: rest) =
      (st, rest, .error (.err (.SubmitError (-r))))) := by
  induction m with
  | zero =>
    constructor
    · intro hr
      simp [submit_with_context, not_lt.mpr hr]
    · intro hr hb
      simp [submit_with_context, hr, hb]
  | succ n ih =>
    constructor
    · intro hr
      rw [List.replicate_succ, List.cons_append, submit_with_context_busy_step]
      exact ih.1 hr
    · intro hr hb
      rw [List.replicate_succ, List.cons_append, submit_with_context_busy_step]
      exact ih.2 hr hb

/-- Witness for C8: two EBUSY answers followed by acceptance of 3 entries
succeed invisibly, and a non-EBUSY failure surfaces as SubmitError. -/
theorem c8_submit_retry_witness :
    submit_with_context ⟨0, [], 1⟩ [-EBUSY, -EBUSY, 3] = (⟨0, [], 4⟩, [], .ok 3) ∧
    submit_with_context ⟨0, [], 1⟩ [-EBUSY, -5] = (⟨0, [], 1⟩, [], .error (.err (.SubmitError 5))) := by
  have h1 := (c8_submit_retry ⟨0, [], 1⟩ 2 3 []).1 (by decide)
  have h2 := (c8_submit_retry ⟨0, [], 1⟩ 1 (-5) []).2 (by decide) (by decide)
  constructor
  · simpa [List.replicate] using h1
  · simpa [List.replicate] using h2

/-- Claim C4: slot acquisition succeeds immediately when a slot is free, with no
flush; when none is free, the context performs one implicit flush and
retries acquisition exactly once, failing with GetSqeError only if the
kernel still grants no slot after that flush; a failed flush propagates
its own error instead; and any GetSqeError outcome implies the implicit
flush succeeded first, its accepted count already added to the
outstanding counter, so a caller never sees a no-slot failure without the
prepared slots having been drained. -/
theorem c4_sqe_backpressure (st : UringState) (b2 : Bool) (sqrest : List Bool)
    (n : Int) (subsrest : List Int) :
    (∀ sq2 subs0, sqe st (true :: sq2) subs0 = (st, sq2, subs0, .ok ())) ∧
    (0 ≤ n → sqe st (false :: b2 :: sqrest) (n :: subsrest) =
      (if b2 then ({ st with submitted_count := st.submitted_count + n.toNat }, sqrest, subsrest, .ok ())
       else ({ st with submitted_count := st.submitted_count + n.toNat }, sqrest, subsrest,
         .error (.err .GetSqeError)))) ∧
    (n < 0 → n ≠ -EBUSY → sqe st (false :: b2 :: sqrest) (n :: subsrest) =
      (st, b2 :: sqrest, subsrest, .error (.err (.SubmitError (-n))))) ∧
    (∀ sq subs st1 sq1 subs1,
      sqe st sq subs = (st1, sq1, subs1, .error (.err .GetSqeError)) →
      ∃ k, submit_with_context st subs = (st1, subs1, .ok k) ∧
        st1.submitted_count = st.submitted_count + k) := by
  refine ⟨?_, ?_, ?_, ?_⟩
  · intro sq2 subs0
    simp [sqe, get_sqe]
  · intro hn
    cases b2 <;> simp [sqe, get_sqe, submit_with_context, not_lt.mpr hn]
  · intro hn hb
    simp [sqe, get_sqe, submit_with_context, hn, hb]
  · intro sq subs st1 sq1 subs1 hsqe
    rcases hsub : submit_with_context st subs with ⟨stA, subsA, rA⟩
    have hshape := submit_with_context_error st subs
    have hok := submit_with_context_ok st subs
    rcases sq with _ | ⟨b, sqr⟩
    · cases rA with
      | error e =>
        have hcomp : sqe st ([] : List Bool) subs = (stA, [], subsA, .error e) := by
          simp [sqe, get_sqe, hsub]
        rw [hcomp] at hsqe
        simp only [Prod.mk.injEq] at hsqe
        obtain ⟨e1, e2, e3, e4⟩ := hsqe
        injection e4 with e5
        rcases (hshape subsA stA e hsub).2 with hbl | ⟨kk, hse⟩
        · rw [hbl] at e5
          simp at e5
        · rw [hse] at e5
          simp at e5
      | ok k =>
        have hcomp : sqe st ([] : List Bool) subs = (stA, [], subsA, .error (.err .GetSqeError)) := by
          simp [sqe, get_sqe, hsub]
        rw [hcomp] at hsqe
        simp only [Prod.mk.injEq] at hsqe
        obtain ⟨e1, e2, e3, e4⟩ := hsqe
        have hA := hok subsA stA k hsub
        refine ⟨k, ?_, ?_⟩
        · rw [e1, e3]
        · rw [← e1, hA]
    · cases b
      · cases rA with
        | error e =>
          have hcomp : sqe st (false :: sqr) subs = (stA, sqr, subsA, .error e) := by
            simp [sqe, get_sqe, hsub]
          rw [hcomp] at hsqe
          simp only [Prod.mk.injEq] at hsqe
          obtain ⟨e1, e2, e3, e4⟩ := hsqe
          injection e4 with e5
          rcases (hshape subsA stA e hsub).2 with hbl | ⟨kk, hse⟩
          · rw [hbl] at e5
            simp at e5
          · rw [hse] at e5
            simp at e5
        | ok k =>
          rcases sqr with _ | ⟨c, sqr2⟩
          · have hcomp : sqe st [false] subs = (stA, [], subsA, .error (.err .GetSqeError)) := by
              simp [sqe, get_sqe, hsub]
            rw [hcomp] at hsqe
            simp only [Prod.mk.injEq] at hsqe
            obtain ⟨e1, e2, e3, e4⟩ := hsqe
            have hA := hok subsA stA k hsub
            refine ⟨k, ?_, ?_⟩
            · rw [e1, e3]
            · rw [← e1, hA]
          · cases c
            · have hcomp : sqe st (false :: false :: sqr2) subs =
                  (stA, sqr2, subsA, .error (.err .GetSqeError)) := by
                simp [sqe, get_sqe, hsub]
              rw [hcomp] at hsqe
              simp only [Prod.mk.injEq] at hsqe
              obtain ⟨e1, e2, e3, e4⟩ := hsqe
              have hA := hok subsA stA k hsub
              refine ⟨k, ?_, ?_⟩
              · rw [e1, e3]
              · rw [← e1, hA]
            · have hcomp : sqe st (false :: true :: sqr2) subs = (stA, sqr2, subsA, .ok ()) := by
                simp [sqe, get_sqe, hsub]
              rw [hcomp] at hsqe
              simp at hsqe
      · have hcomp : sqe st (true :: sqr) subs = (st, sqr, subs, .ok ()) := by
          simp [sqe, get_sqe]
        rw [hcomp] at hsqe
        simp at hsqe

/-- Witness for C4: immediate acquisition with a free slot, acquisition
after an implicit flush, and GetSqeError only after a successful flush. -/
theorem c4_sqe_backpressure_witness :
    sqe ⟨0, [], 0⟩ (true :: [false]) [] = (⟨0, [], 0⟩, [false], [], .ok ()) ∧
    sqe ⟨0, [], 0⟩ [false, true] [2] = (⟨0, [], 2⟩, [], [], .ok ()) ∧
    sqe ⟨0, [], 0⟩ [false, false] [2] = (⟨0, [], 2⟩, [], [], .error (.err .GetSqeError)) := by
  have h1 := c4_sqe_backpressure ⟨0, [], 0⟩ true [] 2 []
  have h2 := c4_sqe_backpressure ⟨0, [], 0⟩ false [] 2 []
  refine ⟨h1.1 [false] [], ?_, ?_⟩
  · have hx := h1.2.1 (by decide)
    simpa using hx
  · have hx := h2.2.1 (by decide)
    simpa using hx

/-- Claim C10: whenever prepare fails (because no submission slot could be
acquired, or because the implicit flush during acquisition failed), the
identity generator and the registry map are unchanged: no identity is
consumed and no registry entry is created, and no handle identity is
returned. -/
theorem c10_prepare_failure_no_mutation (st : UringState) (sq : List Bool) (subs : List Int)
    (kind : UringOperationKind) (st1 : UringState) (sq1 : List Bool) (subs1 : List Int)
    (e : EngineStop) (h : prepare st sq subs kind = (st1, sq1, subs1, .error e)) :
    st1.id_gen = st.id_gen ∧ st1.map = st.map := by
  have hpres := sqe_preserves st sq subs
  rcases hs : sqe st sq subs with ⟨st2, sq2, subs2, r2⟩
  rw [hs] at hpres
  cases r2 with
  | ok u =>
    have hcomp : prepare st sq subs kind =
        (⟨st2.id_gen + 1, minsert st2.map (st2.id_gen + 1) ⟨OperationStatus.Ongoing, kind⟩,
          st2.submitted_count⟩, sq2, subs2, .ok (st2.id_gen + 1)) := by
      simp [prepare, hs]
    rw [hcomp] at h
    simp at h
  | error e2 =>
    have hcomp : prepare st sq subs kind = (st2, sq2, subs2, .error e2) := by
      simp [prepare, hs]
    rw [hcomp] at h
    simp only [Prod.mk.injEq] at h
    obtain ⟨h1, -, -, -⟩ := h
    rw [← h1]
    exact hpres

/-- Witness for C10: a prepare that fails with GetSqeError leaves the
identity generator at 7 and the registry map with its single entry. -/
theorem c10_prepare_failure_witness :
    (prepare ⟨7, [(7, ⟨.Ongoing, .Fsync ⟨1⟩⟩)], 2⟩ [false, false] [0] (.Fsync ⟨9⟩)).2.2.2 =
      .error (.err .GetSqeError) ∧
    (prepare ⟨7, [(7, ⟨.Ongoing, .Fsync ⟨1⟩⟩)], 2⟩ [false, false] [0] (.Fsync ⟨9⟩)).1.id_gen = 7 ∧
    (prepare ⟨7, [(7, ⟨.Ongoing, .Fsync ⟨1⟩⟩)], 2⟩ [false, false] [0] (.Fsync ⟨9⟩)).1.map =
      [(7, ⟨.Ongoing, .Fsync ⟨1⟩⟩)] := by
  have h := c10_prepare_failure_no_mutation ⟨7, [(7, ⟨.Ongoing, .Fsync ⟨1⟩⟩)], 2⟩ [false, false] [0]
    (.Fsync ⟨9⟩) ⟨7, [(7, ⟨.Ongoing, .Fsync ⟨1⟩⟩)], 2⟩ [] [] (.err .GetSqeError) rfl
  exact ⟨rfl, h.1, h.2⟩

/-- Claim C5: dropping a handle without waiting removes an already Completed
entry, silently discarding its result; marks an Ongoing entry Cancelled,
so that the later arrival of its completion is discarded by handle_cqe
without any error and without leaving a registry entry behind; and
dropping itself never raises an error (handle_drop is a total function
into states). -/
theorem c5_handle_drop_spec (st : UringState) (id : Nat) (op : UringOperation) (resC : Int) :
    (∀ r k, mlookup st.map id = some ⟨.Completed r, k⟩ →
      handle_drop st id = { st with map := merase st.map id } ∧
      mlookup (handle_drop st id).map id = none) ∧
    (mlookup st.map id = some op → op.status = .Ongoing →
      mlookup (handle_drop st id).map id = some ⟨.Cancelled, op.kind⟩) ∧
    (mlookup st.map id = some op → op.status = .Ongoing → id ≠ 0 →
      (handle_cqe (handle_drop st id) ⟨id, resC⟩).2 = .ok id ∧
      mlookup (handle_cqe (handle_drop st id) ⟨id, resC⟩).1.map id = none ∧
      (handle_cqe (handle_drop st id) ⟨id, resC⟩).1.submitted_count =
        (handle_drop st id).submitted_count - 1) := by
  refine ⟨?_, ?_, ?_⟩
  · intro r k hl
    constructor
    · simp [handle_drop, hl]
    · simp [handle_drop, hl, mlookup_merase_self]
  · intro hl hst
    simp [handle_drop, hl, hst, mlookup_minsert_self]
  · intro hl hst hid
    have hmap : (handle_drop st id).map = minsert st.map id ⟨.Cancelled, op.kind⟩ := by
      simp [handle_drop, hl, hst]
    refine ⟨?_, ?_, ?_⟩
    · simp [handle_cqe, hid, hmap, mlookup_minsert_self]
    · simp [handle_cqe, hid, hmap, mlookup_minsert_self, mlookup_merase_self]
    · simp [handle_cqe, hid, hmap, mlookup_minsert_self]

/-- Witness for C5: dropping an Ongoing handle marks it Cancelled; the
later completion is then absorbed without error and the entry removed;
dropping a Completed handle removes the entry at once. -/
theorem c5_handle_drop_witness :
    mlookup (handle_drop ⟨2, [(1, ⟨.Ongoing, .Fsync ⟨3⟩⟩)], 1⟩ 1).map 1 =
      some ⟨.Cancelled, .Fsync ⟨3⟩⟩ ∧
    (handle_cqe (handle_drop ⟨2, [(1, ⟨.Ongoing, .Fsync ⟨3⟩⟩)], 1⟩ 1) ⟨1, 0⟩).2 = .ok 1 ∧
    mlookup (handle_cqe (handle_drop ⟨2, [(1, ⟨.Ongoing, .Fsync ⟨3⟩⟩)], 1⟩ 1) ⟨1, 0⟩).1.map 1 =
      none ∧
    handle_drop ⟨2, [(1, ⟨.Completed 5, .Fsync ⟨3⟩⟩)], 0⟩ 1 = ⟨2, [], 0⟩ := by
  have h := c5_handle_drop_spec ⟨2, [(1, ⟨.Ongoing, .Fsync ⟨3⟩⟩)], 1⟩ 1 ⟨.Ongoing, .Fsync ⟨3⟩⟩ 0
  have h2 := c5_handle_drop_spec ⟨2, [(1, ⟨.Completed 5, .Fsync ⟨3⟩⟩)], 0⟩ 1
    ⟨.Completed 5, .Fsync ⟨3⟩⟩ 0
  have ha := h.2.1 (by decide) (by decide)
  have hb := h.2.2 (by decide) (by decide) (by decide)
  have hc := h2.1 5 (.Fsync ⟨3⟩) (by decide)
  refine ⟨ha, hb.1, hb.2.1, ?_⟩
  rw [hc.1]
  decide

/-- A successful prepare assigns the identity one past the generator and
stores it back into the generator. -/
theorem prepare_ok_id (st : UringState) (sq : List Bool) (subs : List Int)
    (kind : UringOperationKind) (st1 : UringState) (sq1 : List Bool) (subs1 : List Int)
    (id : Nat) (h : prepare st sq subs kind = (st1, sq1, subs1, .ok id)) :
    id = st.id_gen + 1 ∧ st1.id_gen = st.id_gen + 1 := by
  have hpres := sqe_preserves st sq subs
  rcases hs : sqe st sq subs with ⟨st2, sq2, subs2, r2⟩
  rw [hs] at hpres
  cases r2 with
  | error e2 =>
    have hcomp : prepare st sq subs kind = (st2, sq2, subs2, .error e2) := by
      simp [prepare, hs]
    rw [hcomp] at h
    simp at h
  | ok u =>
    have hcomp : prepare st sq subs kind =
        (⟨st2.id_gen + 1, minsert st2.map (st2.id_gen + 1) ⟨OperationStatus.Ongoing, kind⟩,
          st2.submitted_count⟩, sq2, subs2, .ok (st2.id_gen + 1)) := by
      simp [prepare, hs]
    rw [hcomp] at h
    simp only [Prod.mk.injEq] at h
    obtain ⟨h1, -, -, h4⟩ := h
    injection h4 with h5
    have hp1 : st2.id_gen = st.id_gen := hpres.1
    constructor
    · rw [← h5, hp1]
    · rw [← h1]
      simp [hp1]

/-- Along any run of successful prepares, the assigned identities are the
successive values of the generator, and the generator advances by the
length of the run. -/
theorem prepare_run_ids (st : UringState) : ∀ (ks : List UringOperationKind) (sq : List Bool)
    (subs : List Int) (ids : List Nat) (stf : UringState),
    prepare_run st sq subs ks = some (ids, stf) →
    ids = (List.range ks.length).map (fun i => st.id_gen + i + 1) ∧
    stf.id_gen = st.id_gen + ks.length := by
  intro ks
  induction ks generalizing st with
  | nil =>
    intro sq subs ids stf h
    simp [prepare_run] at h
    obtain ⟨h1, h2⟩ := h
    subst h1
    subst h2
    exact ⟨by simp, by simp⟩
  | cons k ks ih =>
    intro sq subs ids stf h
    rcases hp : prepare st sq subs k with ⟨st1, sq1, subs1, r1⟩
    cases r1 with
    | error e =>
      have hnone : prepare_run st sq subs (k :: ks) = none := by
        simp [prepare_run, hp]
      rw [hnone] at h
      cases h
    | ok id =>
      have hid := prepare_ok_id st sq subs k st1 sq1 subs1 id hp
      rcases hr : prepare_run st1 sq1 subs1 ks with _ | ⟨ids2, stf2⟩
      · have hnone : prepare_run st sq subs (k :: ks) = none := by
          simp [prepare_run, hp, hr]
        rw [hnone] at h
        cases h
      · have hcomp : prepare_run st sq subs (k :: ks) = some (id :: ids2, stf2) := by
          simp [prepare_run, hp, hr]
        rw [hcomp] at h
        injection h with hpair
        have hids1 : id :: ids2 = ids := congrArg Prod.fst hpair
        have hstf : stf2 = stf := congrArg Prod.snd hpair
        have hihx := ih st1 sq1 subs1 ids2 stf2 hr
        constructor
        · rw [← hids1]
          rw [List.length_cons, List.range_succ_eq_map, List.map_cons, List.map_map]
          have hfun : ((fun i => st.id_gen + i + 1) ∘ (fun i => i + 1)) =
              (fun i => st1.id_gen + i + 1) := by
            funext i
            simp [Function.comp, hid.2]
            omega
          rw [hfun, ← hihx.1, hid.1]
        · rw [← hstf, hihx.2, hid.2, List.length_cons]
          omega

/-- Claim C6: along every run of successful prepare calls on a fresh ring
context, the n-th assigned identity equals n: identities start at 1,
strictly increase, are pairwise distinct (never reused), and zero is never
assigned. -/
theorem c6_identity_assignment (ks : List UringOperationKind) (sq : List Bool) (subs : List Int)
    (ids : List Nat) (stf : UringState)
    (h : prepare_run ⟨0, [], 0⟩ sq subs ks = some (ids, stf)) :
    ids = (List.range ks.length).map (fun i => i + 1) ∧
    (∀ i (hi : i < ids.length), ids.get ⟨i, hi⟩ = i + 1) ∧
    0 ∉ ids ∧
    List.Pairwise (fun a b => a < b) ids ∧
    ids.Nodup := by
  have hmain := prepare_run_ids ⟨0, [], 0⟩ ks sq subs ids stf h
  have hfun0 : (fun i => (⟨0, [], 0⟩ : UringState).id_gen + i + 1) = (fun i : Nat => i + 1) := by
    funext i
    simp
  have hids : ids = (List.range ks.length).map (fun i => i + 1) := by
    rw [hmain.1, hfun0]
  subst hids
  refine ⟨rfl, ?_, ?_, ?_, ?_⟩
  · intro i hi
    simp [List.get_eq_getElem]
  · simp
  · refine List.Pairwise.map _ ?_ (List.pairwise_lt_range _)
    intro a b hab
    show a + 1 < b + 1
    omega
  · refine (List.nodup_range _).map ?_
    intro a b hab
    have hab2 : a + 1 = b + 1 := hab
    omega

/-- Witness for C6: two successful prepares on a fresh context assign the
identities 1 and 2. -/
theorem c6_identity_witness :
    (0 : Nat) ∉ [1, 2] ∧ [1, 2] = (List.range 2).map (fun i => i + 1) ∧
    List.Nodup [1, 2] := by
  have h := c6_identity_assignment [.Fsync ⟨3⟩, .Fsync ⟨4⟩] [true, true] []
    [1, 2] ⟨2, [(2, ⟨.Ongoing, .Fsync ⟨4⟩⟩), (1, ⟨.Ongoing, .Fsync ⟨3⟩⟩)], 0⟩ (by decide)
  exact ⟨h.2.2.1, h.1, h.2.2.2.2⟩

/-- One step of the Drop-for-Uring drain loop: with slots outstanding, a
completion that handle_cqe absorbs successfully makes the loop continue on
the rest of the oracle. -/
theorem uring_drop_drain_step (st : UringState) (c : Cqe) (rest : List CqeResp)
    (st1 : UringState) (hne : st.submitted_count ≠ 0)
    (hcqe : handle_cqe st c = (st1, .ok c.id)) :
    uring_drop_drain st (.ok c :: rest) = uring_drop_drain st1 rest := by
  conv_lhs => rw [show uring_drop_drain st (.ok c :: rest) =
    (if st.submitted_count = 0 then some (st, .ok c :: rest)
     else match handle_cqe st c with
       | (st1, .ok _) => uring_drop_drain st1 rest
       | (st1, .error (.err _)) => some (st1, rest)
       | (_, .error _) => none) from rfl]
  rw [if_neg hne, hcqe]

/-- Claim C9: when the ring is dropped while operations are outstanding and the
kernel delivers a well-formed completion for each of them (distinct
nonzero identities, each present in the registry), the Drop drain loop
consumes exactly those completions and the outstanding count reaches zero
before io_uring_queue_exit releases the kernel ring; no operation is left
mid-flight. -/
theorem c9_teardown_drains (front : List Cqe) : ∀ (st : UringState) (back : List CqeResp),
    front.length = st.submitted_count →
    front.Pairwise (fun a b => a.id ≠ b.id) →
    (∀ c ∈ front, c.id ≠ 0 ∧ mlookup st.map c.id ≠ none) →
    ∃ stf, uring_drop_drain st (front.map CqeResp.ok ++ back) = some (stf, back) ∧
      stf.submitted_count = 0 := by
  induction front with
  | nil =>
    intro st back hlen hdist hgood
    have h0 : st.submitted_count = 0 := by simpa using hlen.symm
    refine ⟨st, ?_, h0⟩
    rw [uring_drop_drain.eq_def]
    simp [h0]
  | cons c fs ih =>
    intro st back hlen hdist hgood
    have hne : st.submitted_count ≠ 0 := by
      simp at hlen
      omega
    have hcz := hgood c (by simp)
    rcases List.pairwise_cons.mp hdist with ⟨hhead, htail⟩
    rcases hl : mlookup st.map c.id with _ | op
    · exact absurd hl hcz.2
    · have hlen2 : fs.length = st.submitted_count - 1 := by
        simp at hlen
        omega
      rcases hst : op.status with _ | r | _
      · have hcqe : handle_cqe st c =
            (⟨st.id_gen, minsert st.map c.id ⟨.Completed c.res, op.kind⟩,
              st.submitted_count - 1⟩, .ok c.id) := by
          simp [handle_cqe, hcz.1, hl, hst]
        have hgood2 : ∀ c2 ∈ fs, c2.id ≠ 0 ∧
            mlookup (⟨st.id_gen, minsert st.map c.id ⟨.Completed c.res, op.kind⟩,
              st.submitted_count - 1⟩ : UringState).map c2.id ≠ none := by
          intro c2 hc2
          have hg := hgood c2 (by simp [hc2])
          refine ⟨hg.1, ?_⟩
          have hne2 : c2.id ≠ c.id := fun hcontra => (hhead c2 hc2) hcontra.symm
          show mlookup (minsert st.map c.id ⟨.Completed c.res, op.kind⟩) c2.id ≠ none
          rw [mlookup_minsert_ne st.map c.id c2.id _ hne2]
          exact hg.2
        obtain ⟨stf, hrun, hz⟩ := ih ⟨st.id_gen, minsert st.map c.id ⟨.Completed c.res, op.kind⟩,
          st.submitted_count - 1⟩ back (by simpa using hlen2) htail hgood2
        refine ⟨stf, ?_, hz⟩
        rw [List.map_cons, List.cons_append, uring_drop_drain_step st c _ _ hne hcqe]
        exact hrun
      · have hcqe : handle_cqe st c =
            (⟨st.id_gen, minsert st.map c.id ⟨.Completed c.res, op.kind⟩,
              st.submitted_count - 1⟩, .ok c.id) := by
          simp [handle_cqe, hcz.1, hl, hst]
        have hgood2 : ∀ c2 ∈ fs, c2.id ≠ 0 ∧
            mlookup (⟨st.id_gen, minsert st.map c.id ⟨.Completed c.res, op.kind⟩,
              st.submitted_count - 1⟩ : UringState).map c2.id ≠ none := by
          intro c2 hc2
          have hg := hgood c2 (by simp [hc2])
          refine ⟨hg.1, ?_⟩
          have hne2 : c2.id ≠ c.id := fun hcontra => (hhead c2 hc2) hcontra.symm
          show mlookup (minsert st.map c.id ⟨.Completed c.res, op.kind⟩) c2.id ≠ none
          rw [mlookup_minsert_ne st.map c.id c2.id _ hne2]
          exact hg.2
        obtain ⟨stf, hrun, hz⟩ := ih ⟨st.id_gen, minsert st.map c.id ⟨.Completed c.res, op.kind⟩,
          st.submitted_count - 1⟩ back (by simpa using hlen2) htail hgood2
        refine ⟨stf, ?_, hz⟩
        rw [List.map_cons, List.cons_append, uring_drop_drain_step st c _ _ hne hcqe]
        exact hrun
      · have hcqe : handle_cqe st c =
            (⟨st.id_gen, merase st.map c.id, st.submitted_count - 1⟩, .ok c.id) := by
          simp [handle_cqe, hcz.1, hl, hst]
        have hgood2 : ∀ c2 ∈ fs, c2.id ≠ 0 ∧
            mlookup (⟨st.id_gen, merase st.map c.id,
              st.submitted_count - 1⟩ : UringState).map c2.id ≠ none := by
          intro c2 hc2
          have hg := hgood c2 (by simp [hc2])
          refine ⟨hg.1, ?_⟩
          have hne2 : c2.id ≠ c.id := fun hcontra => (hhead c2 hc2) hcontra.symm
          show mlookup (merase st.map c.id) c2.id ≠ none
          rw [mlookup_merase_ne st.map c.id c2.id hne2]
          exact hg.2
        obtain ⟨stf, hrun, hz⟩ := ih ⟨st.id_gen, merase st.map c.id,
          st.submitted_count - 1⟩ back (by simpa using hlen2) htail hgood2
        refine ⟨stf, ?_, hz⟩
        rw [List.map_cons, List.cons_append, uring_drop_drain_step st c _ _ hne hcqe]
        exact hrun

/-- Witness for C9: two outstanding operations (one of them cancelled) are
both drained at teardown and the count reaches zero. -/
theorem c9_teardown_witness :
    ∃ stf, uring_drop_drain
        ⟨2, [(2, ⟨.Cancelled, .Fsync ⟨4⟩⟩), (1, ⟨.Ongoing, .Fsync ⟨3⟩⟩)], 2⟩
        [.ok ⟨2, 0⟩, .ok ⟨1, 7⟩] = some (stf, []) ∧ stf.submitted_count = 0 := by
  have h := c9_teardown_drains [⟨2, 0⟩, ⟨1, 7⟩]
    ⟨2, [(2, ⟨.Cancelled, .Fsync ⟨4⟩⟩), (1, ⟨.Ongoing, .Fsync ⟨3⟩⟩)], 2⟩ []
    (by decide) (by decide) (by decide)
  simpa using h

/-- Claim C2: two operations A (identity 1) and B (identity 2) are prepared and
flushed; the kernel completes A first.  Waiting on B absorbs A's
completion: it is recorded in the registry exactly once, as Completed,
while B's own result is returned.  A subsequent wait on A's handle through
Handle::wait of src/handle.rs succeeds with A's own result, as the claim
states.  But the monolithic Handle::wait of src/lib.rs lines 95-110
unconditionally re-drains through wait_for, never finds identity 1 again
(its completion was already absorbed) and fails with InternalError, losing
A's result -- the claim fails on that implementation. -/
theorem c2_absorb_and_retain :
    prepare ⟨0, [], 0⟩ [true] [] (.Fsync ⟨3⟩) =
      (⟨1, [(1, ⟨.Ongoing, .Fsync ⟨3⟩⟩)], 0⟩, [], [], .ok 1) ∧
    prepare ⟨1, [(1, ⟨.Ongoing, .Fsync ⟨3⟩⟩)], 0⟩ [true] [] (.Fsync ⟨4⟩) =
      (⟨2, [(2, ⟨.Ongoing, .Fsync ⟨4⟩⟩), (1, ⟨.Ongoing, .Fsync ⟨3⟩⟩)], 0⟩, [], [], .ok 2) ∧
    submit_with_context ⟨2, [(2, ⟨.Ongoing, .Fsync ⟨4⟩⟩), (1, ⟨.Ongoing, .Fsync ⟨3⟩⟩)], 0⟩ [2] =
      (⟨2, [(2, ⟨.Ongoing, .Fsync ⟨4⟩⟩), (1, ⟨.Ongoing, .Fsync ⟨3⟩⟩)], 2⟩, [], .ok 2) ∧
    handle_wait ⟨2, [(2, ⟨.Ongoing, .Fsync ⟨4⟩⟩), (1, ⟨.Ongoing, .Fsync ⟨3⟩⟩)], 2⟩
        [.ok ⟨1, 0⟩, .ok ⟨2, 0⟩] [0] 2 =
      (⟨2, [(1, ⟨.Completed 0, .Fsync ⟨3⟩⟩)], 0⟩, [], [0], .ok (0, .Fsync ⟨4⟩)) ∧
    mlookup [(1, (⟨.Completed 0, .Fsync ⟨3⟩⟩ : UringOperation))] 1 =
      some ⟨.Completed 0, .Fsync ⟨3⟩⟩ ∧
    handle_wait ⟨2, [(1, ⟨.Completed 0, .Fsync ⟨3⟩⟩)], 0⟩ [] [0] 1 =
      (⟨2, [], 0⟩, [], [0], .ok (0, .Fsync ⟨3⟩)) ∧
    lib_handle_wait ⟨2, [(1, ⟨.Completed 0, .Fsync ⟨3⟩⟩)], 0⟩ [] [0] 1 =
      (⟨2, [], 0⟩, [], [],
        .error (.err (.InternalError "wait_for could not find the operation with the given id"))) := by
  exact ⟨rfl, rfl, rfl, rfl, rfl, rfl, rfl⟩
